import Mathlib

/-!
Shallow embedding of the pnlfs kernel module (src/src/pnlfs.c).

The volume state visible to the namespace operations is modelled by `Volume`:
the in-memory inode store (mode type, `index_block`, `nr_entries` of each
`pnlfs_inode_info`), the content of directory blocks and file-index blocks,
the two free bitmaps (`ifree_bitmap`, `bfree_bitmap`, as lists of 64-bit
machine words, `sizeof(long) = 8` bytes on the target), and the two
superblock counters `nr_free_inodes` / `nr_free_blocks`.

Block I/O never fails in the model (`sb_bread` failure paths are error exits
that do not mutate state and are outside every claim).  Each C function that
returns `int` is modelled as a function returning `Int × Volume` (0 on
success, -1 on the error paths, paired with the post state).  The dentry
arguments supplied by the VFS are modelled by passing the resolved inode
numbers explicitly.
-/

/-- Result of strncmp(a, b, n) == 0 on byte arrays: the first n bytes agree,
with a NUL byte in both strings ending the comparison early.  Bytes past the
end of a list read as 0, matching the zero-filled C buffers. -/
def strncmpEq : List Nat → List Nat → Nat → Bool
  | _, _, 0 => true
  | a, b, n + 1 =>
    if a.headD 0 = b.headD 0 then
      (if a.headD 0 = 0 then true else strncmpEq a.tail b.tail n)
    else false

/-- Read element i of a list, with the Inhabited default for the garbage the
C code would read out of range. -/
def getI [Inhabited α] (l : List α) (i : Nat) : α := l.getD i default

/-- Write element i of a list, padding with defaults when the list is shorter
(the C arrays have fixed size, so in-range writes are the faithful case). -/
def setD [Inhabited α] : List α → Nat → α → List α
  | [], 0, a => [a]
  | [], n + 1, a => default :: setD [] n a
  | _ :: xs, 0, a => a :: xs
  | x :: xs, n + 1, a => x :: setD xs n a

/-- First index in [i, i + fuel) satisfying p, modelling the C scan loops
for (; i < bound; ++i) with break on match. -/
def scanIdx (p : Nat → Bool) : Nat → Nat → Option Nat
  | _, 0 => none
  | i, fuel + 1 => if p i then some i else scanIdx p (i + 1) fuel

/-- Index of the lowest set bit of a 64-bit word, modelling the loop
for (bit_trg = 1; !(*cur & (1 << (bit_trg - 1))); ++bit_trg) in
get_next_ifree / get_next_bfree (the word is nonzero at every use). -/
def lowestSetBit (w : Nat) : Nat := (List.range 64).findIdx (fun b => w.testBit b)

/-- Population count of one 64-bit bitmap word. -/
def wordPopcount (w : Nat) : Nat := (List.range 64).countP (fun b => w.testBit b)

/-- Population count of a whole bitmap. -/
def popcountWords (ws : List Nat) : Nat := (ws.map wordPopcount).sum

/-- Bit i of a bitmap made of 64-bit words, in the numbering used by the
allocator (get_next_ifree returns byte_offset * 8 + bit = 64 * word + bit). -/
def bitTest (ws : List Nat) (i : Nat) : Bool := (getI ws (i / 64)).testBit (i % 64)

/-- PNLFS_WORD_SIZE = sizeof(long) = 8 (bytes) on the x86-64 target. -/
def WORD_SIZE : Nat := 8

/-- Modelled from the spec: pnlfs.h is not under src/; the spec gives
MAX_DIR_ENTRIES = BLOCK_SIZE / sizeof(dir_entry) = 4096 / 32 = 128. -/
def MAX_DIR_ENTRIES : Nat := 128

/-- File type of an inode mode word, as tested by S_ISDIR / S_ISREG. -/
inductive FKind
  | dir
  | reg
  | other
deriving DecidableEq

/-- One struct pnlfs_file slot of a directory block: a little-endian u32
inode number and a filename byte array. -/
structure Entry where
  ino : Nat
  name : List Nat
deriving DecidableEq

instance : Inhabited Entry := ⟨⟨0, []⟩⟩

/-- The persisted fields of one inode that the namespace operations use
(struct pnlfs_inode_info plus the mode type). -/
structure Inode where
  kind : FKind
  index_block : Nat
  nr_entries : Nat
deriving DecidableEq

instance : Inhabited Inode := ⟨⟨FKind.other, 0, 0⟩⟩

/-- The mounted-volume state. -/
structure Volume where
  inodes : List Inode
  dirBlocks : List (List Entry)
  fileIdx : List (List Nat)
  ifree : List Nat
  bfree : List Nat
  nrFreeInodes : Nat
  nrFreeBlocks : Nat
deriving DecidableEq

def getInode (v : Volume) (ino : Nat) : Inode := getI v.inodes ino

def setInode (v : Volume) (ino : Nat) (nd : Inode) : Volume :=
  { v with inodes := setD v.inodes ino nd }

def getDirBlock (v : Volume) (b : Nat) : List Entry := getI v.dirBlocks b

def setDirBlock (v : Volume) (b : Nat) (blk : List Entry) : Volume :=
  { v with dirBlocks := setD v.dirBlocks b blk }

/-- strncpy(dst, src, srclen) into a filename slot: the first srclen bytes
are replaced and the rest of the slot keeps its previous bytes (strncpy adds
no terminator when the source fills the count). -/
def strncpyBytes (dst src : List Nat) : List Nat := src ++ dst.drop src.length

/-- strcpy(dst, src) into a filename slot: the src bytes plus a NUL are
written; the rest of the slot keeps its previous bytes. -/
def strcpyBytes (dst src : List Nat) : List Nat := src ++ 0 :: dst.drop (src.length + 1)

/-- Test of one scan step: strncmp(name, files[i].filename, namelen) == 0. -/
def matchesName (name : List Nat) (e : Entry) : Bool := strncmpEq name e.name name.length

/-- First index below nr whose entry matches name (the scan of
pnlfs_inode_by_name, which iterates i < nr_entries with break on match). -/
def findEntryIdx (blk : List Entry) (nr : Nat) (name : List Nat) : Option Nat :=
  scanIdx (fun i => matchesName name (getI blk i)) 0 nr

/-- Scan a bitmap for its first set bit: the while loop over words starting
at the beginning of the bitmap, then the bit loop.  Returns the allocated
index (64 * word + bit, the pointer arithmetic byte_offset * 8 + bit_trg - 1
of the C code) and the bitmap with that bit cleared.  When every word is
zero the C loop never terminates; that configuration is unreachable because
the counter check guards the scan and popcount never drops below the
counter; the model returns none there. -/
def allocFromWords (ws : List Nat) : Option (Nat × List Nat) :=
  match ws.findIdx? (fun w => w != 0) with
  | none => none
  | some wi =>
    let w := getI ws wi
    let b := lowestSetBit w
    some (wi * 64 + b, setD ws wi (w ^^^ (2 ^ b)))

/-- get_next_ifree: return 0 if nr_free_inodes is 0, otherwise clear the
first set bit of the inode bitmap, decrement the counter, and return its
index. -/
def get_next_ifree (v : Volume) : Nat × Volume :=
  if v.nrFreeInodes = 0 then (0, v)
  else
    match allocFromWords v.ifree with
    | some p => (p.1, { v with ifree := p.2, nrFreeInodes := v.nrFreeInodes - 1 })
    | none => (0, v)

/-- get_next_bfree: the same scan on the block bitmap. -/
def get_next_bfree (v : Volume) : Nat × Volume :=
  if v.nrFreeBlocks = 0 then (0, v)
  else
    match allocFromWords v.bfree with
    | some p => (p.1, { v with bfree := p.2, nrFreeBlocks := v.nrFreeBlocks - 1 })
    | none => (0, v)

/-- Shared body of free_ifree and free_bfree:
cur[ino / PNLFS_WORD_SIZE] |= 1 << (ino % PNLFS_WORD_SIZE) with
PNLFS_WORD_SIZE = 8 (bytes), i.e. word n / 8, bit n % 8.  The counter is not
touched: the C functions do not increment nr_free_inodes / nr_free_blocks. -/
def setByteBit (ws : List Nat) (n : Nat) : List Nat :=
  setD ws (n / WORD_SIZE) (getI ws (n / WORD_SIZE) ||| (2 ^ (n % WORD_SIZE)))

/-- free_ifree(sb, ino). -/
def free_ifree (v : Volume) (ino : Nat) : Volume := { v with ifree := setByteBit v.ifree ino }

/-- free_bfree(sb, block). -/
def free_bfree (v : Volume) (blk : Nat) : Volume := { v with bfree := setByteBit v.bfree blk }

/-- pnlfs_new_inode: allocate an inode number (0 means failure), then
initialize the in-memory inode with the given mode type, a freshly
allocated index block (get_next_bfree, whose 0-on-exhaustion result is not
checked), and nr_entries = 0. -/
def pnlfs_new_inode (v : Volume) (k : FKind) : Option Nat × Volume :=
  let r1 := get_next_ifree v
  if r1.1 = 0 then (none, r1.2)
  else
    let r2 := get_next_bfree r1.2
    (some r1.1, setInode r2.2 r1.1 ⟨k, r2.1, 0⟩)

/-- The entry-insertion block of pnlfs_create / pnlfs_mkdir: write
{inode = ino, filename = strncpy(name)} at slot nr_entries of the
directory's block (the strncpy of namelen bytes leaves the tail bytes of
the slot untouched), then increment the directory's nr_entries. -/
def dirInsertStrncpy (v : Volume) (d ino : Nat) (name : List Nat) : Volume :=
  let dinfo := getInode v d
  let blk := getDirBlock v dinfo.index_block
  let e := Entry.mk ino (strncpyBytes (getI blk dinfo.nr_entries).name name)
  let v2 := setDirBlock v dinfo.index_block (setD blk dinfo.nr_entries e)
  setInode v2 d { dinfo with nr_entries := dinfo.nr_entries + 1 }

/-- Shared body of pnlfs_create and pnlfs_mkdir (the two C functions
duplicate the same code, differing only in the mode passed to
pnlfs_new_inode): reject a full directory, allocate a new inode, then
insert the entry.  There is no check that the name already exists. -/
def createImpl (v : Volume) (dirIno : Nat) (name : List Nat) (k : FKind) : Int × Volume :=
  let dinfo := getInode v dirIno
  if MAX_DIR_ENTRIES ≤ dinfo.nr_entries then (-1, v)
  else
    let r := pnlfs_new_inode v k
    match r.1 with
    | none => (-1, r.2)
    | some ino => (0, dirInsertStrncpy r.2 dirIno ino name)

/-- pnlfs_create (mode carries S_IFREG from the VFS caller). -/
def pnlfs_create (v : Volume) (dirIno : Nat) (name : List Nat) : Int × Volume :=
  createImpl v dirIno name FKind.reg

/-- pnlfs_mkdir (mode |= S_IFDIR). -/
def pnlfs_mkdir (v : Volume) (dirIno : Nat) (name : List Nat) : Int × Volume :=
  createImpl v dirIno name FKind.dir

/-- The left shift performed by the removal memcpy:
memcpy(&files[i], &files[i] + 1, sizeof(file) * (nr - i - 1)) copies entries
i+1 .. nr-1 forward into positions i .. nr-2; slot nr-1 and everything past
it keep their old bytes. -/
def shiftLeft (blk : List Entry) (i nr : Nat) : List Entry :=
  (List.range blk.length).map
    (fun j => if i ≤ j ∧ j < nr - 1 then getI blk (j + 1) else getI blk j)

/-- The directory-entry removal loop shared (duplicated verbatim) by
pnlfs_unlink, pnlfs_rmdir and pnlfs_rename: scan i < nr_entries - 1 for the
first matching slot and shift the tail left on a hit.  The Bool records
whether the break was hit.  The loop bound is nr_entries - 1, so the last
live slot is never examined.  The caller decrements nr_entries afterwards
whether or not a match was found. -/
def removeScan (blk : List Entry) (nr : Nat) (name : List Nat) : List Entry × Bool :=
  match scanIdx (fun i => matchesName name (getI blk i)) 0 (nr - 1) with
  | some i => (shiftLeft blk i nr, true)
  | none => (blk, false)

/-- The entry-removal block duplicated verbatim by pnlfs_unlink,
pnlfs_rmdir and pnlfs_rename: run the removal scan on the directory's block
and decrement nr_entries, whether or not the scan found a match. -/
def dirRemoveStep (v : Volume) (d : Nat) (name : List Nat) : Volume :=
  let dinfo := getInode v d
  let blk := getDirBlock v dinfo.index_block
  let v1 := setDirBlock v dinfo.index_block (removeScan blk dinfo.nr_entries name).1
  setInode v1 d { dinfo with nr_entries := dinfo.nr_entries - 1 }

/-- pnlfs_unlink(dir, dentry): reject a non-regular target or an empty
directory; run the removal scan and decrement nr_entries unconditionally;
then free the target's data blocks, its index block and its inode bit. -/
def pnlfs_unlink (v : Volume) (dirIno tgtIno : Nat) (name : List Nat) : Int × Volume :=
  let tgt := getInode v tgtIno
  if tgt.kind ≠ FKind.reg then (-1, v)
  else
    let dinfo := getInode v dirIno
    if dinfo.nr_entries = 0 then (-1, v)
    else
      let v2 := dirRemoveStep v dirIno name
      let tinfo := getInode v2 tgtIno
      let fib := getI v2.fileIdx tinfo.index_block
      let v3 := (List.range tinfo.nr_entries).foldl (fun w i => free_bfree w (getI fib i)) v2
      let v4 := free_bfree v3 tinfo.index_block
      (0, free_ifree v4 tgtIno)

/-- pnlfs_rmdir(dir, dentry): reject a non-directory target, an empty parent
or a non-empty target; run the removal scan and decrement nr_entries
unconditionally; then free the target's index block and inode bit. -/
def pnlfs_rmdir (v : Volume) (dirIno tgtIno : Nat) (name : List Nat) : Int × Volume :=
  let tgt := getInode v tgtIno
  let dinfo := getInode v dirIno
  if tgt.kind ≠ FKind.dir then (-1, v)
  else if dinfo.nr_entries = 0 then (-1, v)
  else if tgt.nr_entries ≠ 0 then (-1, v)
  else
    let v2 := dirRemoveStep v dirIno name
    let v3 := free_bfree v2 tgt.index_block
    (0, free_ifree v3 tgtIno)

/-- pnlfs_rename(old_dir, old_dentry, new_dir, new_dentry, flags):
new_inode = new_dentry->d_inode falls back to old_dentry->d_inode when the
target name does not exist (newTgt = none).  Remove old_name from old_dir
(scan + unconditional decrement), fail if new_dir is full (old_dir already
mutated), then write {new_inode->i_ino, strcpy(new_name)} at slot nr_entries
of new_dir's block and increment its nr_entries.  No resource of a displaced
target is freed. -/
def pnlfs_rename (v : Volume) (oldDirIno oldTgt : Nat) (oldName : List Nat)
    (newDirIno : Nat) (newTgt : Option Nat) (newName : List Nat) : Int × Volume :=
  let newIno := newTgt.getD oldTgt
  let oinfo := getInode v oldDirIno
  if oinfo.nr_entries = 0 then (-1, v)
  else
    let v2 := dirRemoveStep v oldDirIno oldName
    let ninfo := getInode v2 newDirIno
    if MAX_DIR_ENTRIES ≤ ninfo.nr_entries then (-1, v2)
    else
      let nblk := getDirBlock v2 ninfo.index_block
      let e := Entry.mk newIno (strcpyBytes (getI nblk ninfo.nr_entries).name newName)
      let v3 := setDirBlock v2 ninfo.index_block (setD nblk ninfo.nr_entries e)
      (0, setInode v3 newDirIno { ninfo with nr_entries := ninfo.nr_entries + 1 })

/-- pnlfs_inode_by_name(dir, child): scan the directory block for the first
entry whose filename strncmp-matches; return its stored inode number, or 0
when no entry matches (ino is initialized to 0 and returned unchanged). -/
def pnlfs_inode_by_name (v : Volume) (dirIno : Nat) (name : List Nat) : Nat :=
  let dinfo := getInode v dirIno
  let blk := getDirBlock v dinfo.index_block
  match findEntryIdx blk dinfo.nr_entries name with
  | some i => (getI blk i).ino
  | none => 0

/-- pnlfs_lookup: resolve through pnlfs_inode_by_name; a 0 result takes the
failed path (d_add(dentry, NULL), a negative dentry). -/
def pnlfs_lookup (v : Volume) (dirIno : Nat) (name : List Nat) : Option Nat :=
  let ino := pnlfs_inode_by_name v dirIno name
  if ino = 0 then none else some ino

/-- Directory-block entry indices emitted by one pnlfs_readdir call entered
at cursor pos, assuming the emit callback keeps accepting: after the bail-out
for pos >= nr_entries + 2 and the dots, the loop emits entries
0 .. nr_entries-1 from the start regardless of pos. -/
def pnlfs_readdir_indices (v : Volume) (dirIno : Nat) (pos : Nat) : List Nat :=
  let dinfo := getInode v dirIno
  if dinfo.nr_entries + 2 ≤ pos then []
  else List.range dinfo.nr_entries

/-! Concrete volumes used by the counterexamples and witnesses below.
File names are byte lists: [97] = "a", [98] = "b", [102] = "f", [103] = "g". -/

/-- A freshly formatted minimal image: root (inode 0) is a directory with
directory block 4 and no entries; inode 1 and block 5 are free
(ifree word 2 = bit 1 set, bfree word 32 = bit 5 set), counters match the
bitmap popcounts. -/
def vC1 : Volume :=
  ⟨[⟨FKind.dir, 4, 0⟩], List.replicate 8 [], List.replicate 8 [], [2], [32], 1, 1⟩

/-- A volume with two all-zero bitmap words, for exercising the free
functions in isolation. -/
def vC2 : Volume := ⟨[], [], [], [0, 0], [0, 0], 5, 7⟩

/-- Root directory already holds an entry named f for inode 1; inode 2 and
block 6 are still free. -/
def vC3 : Volume :=
  ⟨[⟨FKind.dir, 4, 1⟩, ⟨FKind.reg, 5, 0⟩],
   [[], [], [], [], [⟨1, [102]⟩], [], [], []], List.replicate 8 [], [4], [64], 1, 1⟩

/-- A single-slot directory block whose only live entry is named f. -/
def blkC4 : List Entry := [⟨1, [102]⟩]

/-- old_dir (inode 0, block 4) holds f -> inode 1 (S); new_dir (inode 2,
block 5) holds g -> inode 3 (T). -/
def vC5 : Volume :=
  ⟨[⟨FKind.dir, 4, 1⟩, ⟨FKind.reg, 6, 0⟩, ⟨FKind.dir, 5, 1⟩, ⟨FKind.reg, 7, 0⟩],
   [[], [], [], [], [⟨1, [102]⟩], [⟨3, [103]⟩], [], []], List.replicate 8 [], [0], [0], 0, 0⟩

/-- A directory (inode 0, block 4) with entries a -> 1 and b -> 2. -/
def vC6 : Volume :=
  ⟨[⟨FKind.dir, 4, 2⟩, ⟨FKind.reg, 6, 0⟩, ⟨FKind.reg, 7, 0⟩],
   [[], [], [], [], [⟨1, [97]⟩, ⟨2, [98]⟩], [], [], []], List.replicate 8 [], [0], [0], 0, 0⟩

/-- A directory filled to MAX_DIR_ENTRIES. -/
def vC7a : Volume :=
  ⟨[⟨FKind.dir, 4, 128⟩], List.replicate 8 [], List.replicate 8 [], [0], [0], 0, 0⟩

/-- A parent directory whose child (inode 1) is a non-empty directory. -/
def vC7b : Volume :=
  ⟨[⟨FKind.dir, 4, 1⟩, ⟨FKind.dir, 5, 1⟩],
   [[], [], [], [], [⟨1, [97]⟩], [⟨0, [98]⟩], [], []], List.replicate 8 [], [0], [0], 0, 0⟩

/-- old_dir (inode 0) with one entry, new_dir (inode 1) full. -/
def vC7c : Volume :=
  ⟨[⟨FKind.dir, 4, 1⟩, ⟨FKind.dir, 5, 128⟩],
   [[], [], [], [], [⟨2, [97]⟩], [], [], []], List.replicate 8 [], [0], [0], 0, 0⟩

/-- Root empty, one free inode (bit 1), no free block. -/
def vC7d : Volume :=
  ⟨[⟨FKind.dir, 4, 0⟩], List.replicate 8 [], List.replicate 8 [], [2], [0], 1, 0⟩

/-- Root holds a single entry a -> inode 1 (regular). -/
def vC8 : Volume :=
  ⟨[⟨FKind.dir, 4, 1⟩, ⟨FKind.reg, 5, 0⟩],
   [[], [], [], [], [⟨1, [97]⟩], [], [], []], List.replicate 8 [], [0], [0], 0, 0⟩

/-- Root with two live entries a -> 1 and b -> 2. -/
def vC9 : Volume :=
  ⟨[⟨FKind.dir, 4, 2⟩, ⟨FKind.reg, 5, 0⟩, ⟨FKind.reg, 6, 0⟩],
   [[], [], [], [], [⟨1, [97]⟩, ⟨2, [98]⟩], [], [], []], List.replicate 8 [], [0], [0], 0, 0⟩

/-- Root with one entry a whose stored inode number is 0. -/
def vC10 : Volume :=
  ⟨[⟨FKind.dir, 4, 1⟩], [[], [], [], [], [⟨0, [97]⟩], [], [], []],
   List.replicate 8 [], [0], [0], 0, 0⟩

/-- Claim C1: the C code keeps the popcount/counter invariant through
create (get_next_ifree / get_next_bfree clear a bit and decrement), but
free_ifree / free_bfree never increment the counters, so after the first
successful unlink on a fresh image the popcount of each bitmap exceeds its
counter by one.  This run evaluates create then unlink on the fresh image
vC1: both succeed, the invariant holds after create and is broken after
unlink. -/
theorem C1_popcount_counter_diverges :
    (pnlfs_create vC1 0 [102]).1 = 0 ∧
    popcountWords vC1.ifree = vC1.nrFreeInodes ∧
    popcountWords vC1.bfree = vC1.nrFreeBlocks ∧
    popcountWords (pnlfs_create vC1 0 [102]).2.ifree
      = (pnlfs_create vC1 0 [102]).2.nrFreeInodes ∧
    popcountWords (pnlfs_create vC1 0 [102]).2.bfree
      = (pnlfs_create vC1 0 [102]).2.nrFreeBlocks ∧
    (pnlfs_unlink (pnlfs_create vC1 0 [102]).2 0 1 [102]).1 = 0 ∧
    popcountWords (pnlfs_unlink (pnlfs_create vC1 0 [102]).2 0 1 [102]).2.ifree = 1 ∧
    (pnlfs_unlink (pnlfs_create vC1 0 [102]).2 0 1 [102]).2.nrFreeInodes = 0 ∧
    popcountWords (pnlfs_unlink (pnlfs_create vC1 0 [102]).2 0 1 [102]).2.bfree = 1 ∧
    (pnlfs_unlink (pnlfs_create vC1 0 [102]).2 0 1 [102]).2.nrFreeBlocks = 0 := by
  decide

/-- Claim C2: free_ifree(ino) divides by PNLFS_WORD_SIZE = sizeof(long) = 8
bytes where the allocator numbering uses 64 bits per word, so for ino = 8 it
sets word 1 bit 0 — global bit 64, not bit 8 — and it never increments
nr_free_inodes; free_bfree behaves identically on the block bitmap. -/
theorem C2_free_sets_wrong_bit_and_skips_counter :
    (free_ifree vC2 8).ifree = [0, 1] ∧
    bitTest (free_ifree vC2 8).ifree 8 = false ∧
    bitTest (free_ifree vC2 8).ifree 64 = true ∧
    (free_ifree vC2 8).nrFreeInodes = vC2.nrFreeInodes ∧
    (free_bfree vC2 8).bfree = [0, 1] ∧
    bitTest (free_bfree vC2 8).bfree 8 = false ∧
    (free_bfree vC2 8).nrFreeBlocks = vC2.nrFreeBlocks := by
  decide

/-- Claim C9: pnlfs_readdir's emission loop always starts at directory-block
entry 0, ignoring the cursor: on a two-entry directory, a call entered at
cursor 3 emits entries [0, 1] instead of resuming at entry 3 - 2 = 1, so
entry 0 — already emitted by the call that covered cursor 2 — is emitted
again. -/
theorem C9_readdir_ignores_cursor :
    pnlfs_readdir_indices vC9 0 2 = [0, 1] ∧
    pnlfs_readdir_indices vC9 0 3 = [0, 1] ∧
    pnlfs_readdir_indices vC9 0 3 ≠ [1] := by
  decide

/-- Claim C3 counterexample: with name f already live in the root of vC3 and
resources available, pnlfs_create succeeds (it performs no existence check),
mutates the volume, and leaves the directory with two entries. -/
theorem C3_counterexample :
    (pnlfs_create vC3 0 [102]).1 = 0 ∧
    (pnlfs_create vC3 0 [102]).2 ≠ vC3 ∧
    (getInode (pnlfs_create vC3 0 [102]).2 0).nr_entries = 2 := by
  decide

/-- Claim C4 counterexample: in a single-entry directory whose only (last)
slot matches, the removal scan shared by unlink/rmdir/rename terminates
without finding the entry (its loop bound is nr_entries - 1 = 0). -/
theorem C4_counterexample :
    matchesName [102] (getI blkC4 0) = true ∧
    (removeScan blkC4 1 [102]).2 = false := by
  decide

/-- Claim C5 counterexample: renaming f (inode 1 = S) of old_dir onto the
existing name g (inode 3 = T) of new_dir succeeds, but lookup(new_dir, g)
still returns T, not S, and neither bitmap nor counter changes — T's
resources are not freed. -/
theorem C5_counterexample :
    (pnlfs_rename vC5 0 1 [102] 2 (some 3) [103]).1 = 0 ∧
    pnlfs_lookup (pnlfs_rename vC5 0 1 [102] 2 (some 3) [103]).2 2 [103] = some 3 ∧
    pnlfs_lookup (pnlfs_rename vC5 0 1 [102] 2 (some 3) [103]).2 2 [103] ≠ some 1 ∧
    (pnlfs_rename vC5 0 1 [102] 2 (some 3) [103]).2.ifree = vC5.ifree ∧
    (pnlfs_rename vC5 0 1 [102] 2 (some 3) [103]).2.bfree = vC5.bfree ∧
    (pnlfs_rename vC5 0 1 [102] 2 (some 3) [103]).2.nrFreeInodes = vC5.nrFreeInodes ∧
    (pnlfs_rename vC5 0 1 [102] 2 (some 3) [103]).2.nrFreeBlocks = vC5.nrFreeBlocks := by
  decide

/-- Claim C6 counterexample: rename(d, a, d, a) on a directory whose entry a
is not in the last slot succeeds but changes the directory block (the entry
is removed and re-inserted at the end), so the call is not a no-op. -/
theorem C6_counterexample :
    (pnlfs_rename vC6 0 1 [97] 0 (some 1) [97]).1 = 0 ∧
    (pnlfs_rename vC6 0 1 [97] 0 (some 1) [97]).2 ≠ vC6 := by
  decide

/-- Claim C8 counterexample: unlinking name b, which is not a live entry of
the root of vC8, reports success (0, not NotFound) and mutates the
directory: nr_entries drops from 1 to 0, silently discarding the unrelated
entry a. -/
theorem C8_counterexample :
    (pnlfs_unlink vC8 0 1 [98]).1 = 0 ∧
    (pnlfs_unlink vC8 0 1 [98]).2 ≠ vC8 ∧
    (getInode (pnlfs_unlink vC8 0 1 [98]).2 0).nr_entries = 0 := by
  decide

/-! Auxiliary lemmas about the list helpers. -/

@[simp] theorem getI_setD_self [Inhabited α] (l : List α) (i : Nat) (a : α) :
    getI (setD l i a) i = a := by
  induction i generalizing l with
  | zero => cases l <;> simp [setD, getI]
  | succ n ih =>
    cases l with
    | nil => simpa [setD, getI] using ih []
    | cons x xs => simpa [setD, getI] using ih xs

theorem getI_setD_ne [Inhabited α] (l : List α) (i j : Nat) (a : α) (h : j ≠ i) :
    getI (setD l i a) j = getI l j := by
  induction i generalizing l j with
  | zero =>
    cases l with
    | nil =>
      cases j with
      | zero => exact absurd rfl h
      | succ m => simp [setD, getI]
    | cons x xs =>
      cases j with
      | zero => exact absurd rfl h
      | succ m => simp [setD, getI]
  | succ n ih =>
    cases l with
    | nil =>
      cases j with
      | zero => simp [setD, getI]
      | succ m =>
        have hm : m ≠ n := by omega
        simpa [setD, getI] using ih [] m hm
    | cons x xs =>
      cases j with
      | zero => simp [setD, getI]
      | succ m =>
        have hm : m ≠ n := by omega
        simpa [setD, getI] using ih xs m hm

theorem scanIdx_eq_none_iff (p : Nat → Bool) (fuel i : Nat) :
    scanIdx p i fuel = none ↔ ∀ k, i ≤ k → k < i + fuel → p k = false := by
  induction fuel generalizing i with
  | zero =>
    constructor
    · intro _ k h1 h2
      omega
    · intro _
      rfl
  | succ n ih =>
    simp only [scanIdx]
    by_cases hp : p i
    · rw [if_pos hp]
      constructor
      · intro h
        exact Option.noConfusion h
      · intro H
        have hfalse := H i (Nat.le_refl i) (by omega)
        rw [hfalse] at hp
        exact Bool.noConfusion hp
    · rw [if_neg hp, ih (i + 1)]
      have hpf : p i = false := by simpa using hp
      constructor
      · intro H k hk1 hk2
        rcases Nat.eq_or_lt_of_le hk1 with heq | hlt
        · rw [← heq]
          exact hpf
        · exact H k hlt (by omega)
      · intro H k hk1 hk2
        exact H k (by omega) (by omega)

theorem scanIdx_eq_some_iff (p : Nat → Bool) (fuel i j : Nat) :
    scanIdx p i fuel = some j ↔
      i ≤ j ∧ j < i + fuel ∧ p j = true ∧ ∀ k, i ≤ k → k < j → p k = false := by
  induction fuel generalizing i with
  | zero =>
    constructor
    · intro h
      exact Option.noConfusion h
    · rintro ⟨h1, h2, -, -⟩
      omega
  | succ n ih =>
    simp only [scanIdx]
    by_cases hp : p i
    · rw [if_pos hp]
      constructor
      · intro h
        have hij : i = j := Option.some.inj h
        subst hij
        exact ⟨Nat.le_refl i, by omega, hp, fun k hk1 hk2 => absurd hk1 (by omega)⟩
      · rintro ⟨h1, h2, h3, h4⟩
        have hij : i = j := by
          by_contra hne
          have hfalse := h4 i (Nat.le_refl i) (by omega)
          rw [hfalse] at hp
          exact Bool.noConfusion hp
        rw [hij]
    · rw [if_neg hp, ih (i + 1)]
      have hpf : p i = false := by simpa using hp
      constructor
      · rintro ⟨h1, h2, h3, h4⟩
        refine ⟨by omega, by omega, h3, ?_⟩
        intro k hk1 hk2
        rcases Nat.eq_or_lt_of_le hk1 with heq | hlt
        · rw [← heq]
          exact hpf
        · exact h4 k hlt hk2
      · rintro ⟨h1, h2, h3, h4⟩
        refine ⟨?_, by omega, h3, ?_⟩
        · rcases Nat.eq_or_lt_of_le h1 with heq | hlt
          · rw [← heq] at h3
            rw [h3] at hpf
            exact absurd hpf (by simp)
          · omega
        · intro k hk1 hk2
          exact h4 k (by omega) hk2

theorem getI_shiftLeft (blk : List Entry) (i nr j : Nat) :
    getI (shiftLeft blk i nr) j =
      if i ≤ j ∧ j < nr - 1 then getI blk (j + 1) else getI blk j := by
  by_cases hj : j < blk.length
  · have hsome : (shiftLeft blk i nr)[j]? =
        some (if i ≤ j ∧ j < nr - 1 then getI blk (j + 1) else getI blk j) := by
      unfold shiftLeft
      rw [List.getElem?_map, List.getElem?_range hj]
      rfl
    rw [getI, List.getD_eq_getElem?_getD, hsome]
    rfl
  · have hlen : blk.length ≤ j := by omega
    have h1 : getI blk j = default := by
      rw [getI, List.getD_eq_default _ _ hlen]
    have h2 : getI blk (j + 1) = default := by
      rw [getI, List.getD_eq_default _ _ (by omega)]
    have h3 : getI (shiftLeft blk i nr) j = default := by
      rw [getI]
      apply List.getD_eq_default
      unfold shiftLeft
      rw [List.length_map, List.length_range]
      exact hlen
    rw [h3, h2, h1]
    exact (ite_self _).symm

theorem strncmpEq_append (a l : List Nat) (h : ∀ b, b ∈ a → b ≠ 0) :
    strncmpEq a (a ++ l) a.length = true := by
  induction a with
  | nil => rfl
  | cons x xs ih =>
    have hx : x ≠ 0 := h x (List.mem_cons_self x xs)
    simp only [List.cons_append, List.length_cons, strncmpEq, List.headD_cons, List.tail_cons]
    simp only [if_pos trivial, eq_self_iff_true, if_true]
    rw [if_neg hx]
    exact ih (fun b hb => h b (List.mem_cons_of_mem x hb))

/-! Frame lemmas: which state components each helper leaves untouched. -/

@[simp] theorem setInode_inodes (v : Volume) (i : Nat) (nd : Inode) :
    (setInode v i nd).inodes = setD v.inodes i nd := rfl

@[simp] theorem setInode_dirBlocks (v : Volume) (i : Nat) (nd : Inode) :
    (setInode v i nd).dirBlocks = v.dirBlocks := rfl

@[simp] theorem setInode_fileIdx (v : Volume) (i : Nat) (nd : Inode) :
    (setInode v i nd).fileIdx = v.fileIdx := rfl

@[simp] theorem setInode_ifree (v : Volume) (i : Nat) (nd : Inode) :
    (setInode v i nd).ifree = v.ifree := rfl

@[simp] theorem setInode_bfree (v : Volume) (i : Nat) (nd : Inode) :
    (setInode v i nd).bfree = v.bfree := rfl

@[simp] theorem setInode_nrFreeInodes (v : Volume) (i : Nat) (nd : Inode) :
    (setInode v i nd).nrFreeInodes = v.nrFreeInodes := rfl

@[simp] theorem setInode_nrFreeBlocks (v : Volume) (i : Nat) (nd : Inode) :
    (setInode v i nd).nrFreeBlocks = v.nrFreeBlocks := rfl

@[simp] theorem setDirBlock_inodes (v : Volume) (b : Nat) (blk : List Entry) :
    (setDirBlock v b blk).inodes = v.inodes := rfl

@[simp] theorem setDirBlock_dirBlocks (v : Volume) (b : Nat) (blk : List Entry) :
    (setDirBlock v b blk).dirBlocks = setD v.dirBlocks b blk := rfl

@[simp] theorem setDirBlock_fileIdx (v : Volume) (b : Nat) (blk : List Entry) :
    (setDirBlock v b blk).fileIdx = v.fileIdx := rfl

@[simp] theorem setDirBlock_ifree (v : Volume) (b : Nat) (blk : List Entry) :
    (setDirBlock v b blk).ifree = v.ifree := rfl

@[simp] theorem setDirBlock_bfree (v : Volume) (b : Nat) (blk : List Entry) :
    (setDirBlock v b blk).bfree = v.bfree := rfl

@[simp] theorem setDirBlock_nrFreeInodes (v : Volume) (b : Nat) (blk : List Entry) :
    (setDirBlock v b blk).nrFreeInodes = v.nrFreeInodes := rfl

@[simp] theorem setDirBlock_nrFreeBlocks (v : Volume) (b : Nat) (blk : List Entry) :
    (setDirBlock v b blk).nrFreeBlocks = v.nrFreeBlocks := rfl

@[simp] theorem free_ifree_inodes (v : Volume) (n : Nat) :
    (free_ifree v n).inodes = v.inodes := rfl

@[simp] theorem free_ifree_dirBlocks (v : Volume) (n : Nat) :
    (free_ifree v n).dirBlocks = v.dirBlocks := rfl

@[simp] theorem free_ifree_fileIdx (v : Volume) (n : Nat) :
    (free_ifree v n).fileIdx = v.fileIdx := rfl

@[simp] theorem free_ifree_bfree (v : Volume) (n : Nat) :
    (free_ifree v n).bfree = v.bfree := rfl

@[simp] theorem free_ifree_nrFreeInodes (v : Volume) (n : Nat) :
    (free_ifree v n).nrFreeInodes = v.nrFreeInodes := rfl

@[simp] theorem free_ifree_nrFreeBlocks (v : Volume) (n : Nat) :
    (free_ifree v n).nrFreeBlocks = v.nrFreeBlocks := rfl

@[simp] theorem free_bfree_inodes (v : Volume) (n : Nat) :
    (free_bfree v n).inodes = v.inodes := rfl

@[simp] theorem free_bfree_dirBlocks (v : Volume) (n : Nat) :
    (free_bfree v n).dirBlocks = v.dirBlocks := rfl

@[simp] theorem free_bfree_fileIdx (v : Volume) (n : Nat) :
    (free_bfree v n).fileIdx = v.fileIdx := rfl

@[simp] theorem free_bfree_ifree (v : Volume) (n : Nat) :
    (free_bfree v n).ifree = v.ifree := rfl

@[simp] theorem free_bfree_nrFreeInodes (v : Volume) (n : Nat) :
    (free_bfree v n).nrFreeInodes = v.nrFreeInodes := rfl

@[simp] theorem free_bfree_nrFreeBlocks (v : Volume) (n : Nat) :
    (free_bfree v n).nrFreeBlocks = v.nrFreeBlocks := rfl

theorem get_next_ifree_frame (v : Volume) :
    (get_next_ifree v).2.inodes = v.inodes ∧
    (get_next_ifree v).2.dirBlocks = v.dirBlocks ∧
    (get_next_ifree v).2.fileIdx = v.fileIdx ∧
    (get_next_ifree v).2.bfree = v.bfree ∧
    (get_next_ifree v).2.nrFreeBlocks = v.nrFreeBlocks := by
  unfold get_next_ifree
  by_cases h : v.nrFreeInodes = 0
  · simp [h]
  · rw [if_neg h]
    cases halloc : allocFromWords v.ifree with
    | none => simp
    | some p => simp

theorem get_next_bfree_frame (v : Volume) :
    (get_next_bfree v).2.inodes = v.inodes ∧
    (get_next_bfree v).2.dirBlocks = v.dirBlocks ∧
    (get_next_bfree v).2.fileIdx = v.fileIdx ∧
    (get_next_bfree v).2.ifree = v.ifree ∧
    (get_next_bfree v).2.nrFreeInodes = v.nrFreeInodes := by
  unfold get_next_bfree
  by_cases h : v.nrFreeBlocks = 0
  · simp [h]
  · rw [if_neg h]
    cases halloc : allocFromWords v.bfree with
    | none => simp
    | some p => simp

theorem get_next_ifree_counter (v : Volume) (h : (get_next_ifree v).1 ≠ 0) :
    (get_next_ifree v).2.nrFreeInodes = v.nrFreeInodes - 1 := by
  unfold get_next_ifree at h ⊢
  by_cases hc : v.nrFreeInodes = 0
  · rw [if_pos hc] at h
    exact absurd rfl h
  · rw [if_neg hc] at h ⊢
    cases halloc : allocFromWords v.ifree with
    | none =>
      rw [halloc] at h
      exact absurd rfl h
    | some p =>
      rfl

theorem get_next_bfree_of_empty (v : Volume) (h : v.nrFreeBlocks = 0) :
    get_next_bfree v = (0, v) := by
  unfold get_next_bfree
  rw [if_pos h]

@[simp] theorem dirRemoveStep_fileIdx (v : Volume) (d : Nat) (name : List Nat) :
    (dirRemoveStep v d name).fileIdx = v.fileIdx := rfl

@[simp] theorem dirRemoveStep_ifree (v : Volume) (d : Nat) (name : List Nat) :
    (dirRemoveStep v d name).ifree = v.ifree := rfl

@[simp] theorem dirRemoveStep_bfree (v : Volume) (d : Nat) (name : List Nat) :
    (dirRemoveStep v d name).bfree = v.bfree := rfl

@[simp] theorem dirRemoveStep_nrFreeInodes (v : Volume) (d : Nat) (name : List Nat) :
    (dirRemoveStep v d name).nrFreeInodes = v.nrFreeInodes := rfl

@[simp] theorem dirRemoveStep_nrFreeBlocks (v : Volume) (d : Nat) (name : List Nat) :
    (dirRemoveStep v d name).nrFreeBlocks = v.nrFreeBlocks := rfl

theorem dirRemoveStep_dirBlocks (v : Volume) (d : Nat) (name : List Nat) :
    (dirRemoveStep v d name).dirBlocks =
      setD v.dirBlocks (getInode v d).index_block
        (removeScan (getDirBlock v (getInode v d).index_block)
          (getInode v d).nr_entries name).1 := rfl

theorem getInode_dirRemoveStep_self (v : Volume) (d : Nat) (name : List Nat) :
    getInode (dirRemoveStep v d name) d =
      { getInode v d with nr_entries := (getInode v d).nr_entries - 1 } := by
  unfold dirRemoveStep getInode
  simp

theorem getInode_dirRemoveStep_ne (v : Volume) (d : Nat) (name : List Nat) (x : Nat)
    (h : x ≠ d) :
    getInode (dirRemoveStep v d name) x = getInode v x := by
  unfold dirRemoveStep getInode
  simp only [setInode_inodes, setDirBlock_inodes]
  exact getI_setD_ne _ _ _ _ h

@[simp] theorem dirInsertStrncpy_fileIdx (v : Volume) (d ino : Nat) (name : List Nat) :
    (dirInsertStrncpy v d ino name).fileIdx = v.fileIdx := rfl

@[simp] theorem dirInsertStrncpy_ifree (v : Volume) (d ino : Nat) (name : List Nat) :
    (dirInsertStrncpy v d ino name).ifree = v.ifree := rfl

@[simp] theorem dirInsertStrncpy_bfree (v : Volume) (d ino : Nat) (name : List Nat) :
    (dirInsertStrncpy v d ino name).bfree = v.bfree := rfl

@[simp] theorem dirInsertStrncpy_nrFreeInodes (v : Volume) (d ino : Nat) (name : List Nat) :
    (dirInsertStrncpy v d ino name).nrFreeInodes = v.nrFreeInodes := rfl

@[simp] theorem dirInsertStrncpy_nrFreeBlocks (v : Volume) (d ino : Nat) (name : List Nat) :
    (dirInsertStrncpy v d ino name).nrFreeBlocks = v.nrFreeBlocks := rfl

theorem dirInsertStrncpy_dirBlocks (v : Volume) (d ino : Nat) (name : List Nat) :
    (dirInsertStrncpy v d ino name).dirBlocks =
      setD v.dirBlocks (getInode v d).index_block
        (setD (getDirBlock v (getInode v d).index_block) (getInode v d).nr_entries
          ⟨ino, strncpyBytes
            (getI (getDirBlock v (getInode v d).index_block)
              (getInode v d).nr_entries).name name⟩) := rfl

theorem getInode_dirInsertStrncpy_self (v : Volume) (d ino : Nat) (name : List Nat) :
    getInode (dirInsertStrncpy v d ino name) d =
      { getInode v d with nr_entries := (getInode v d).nr_entries + 1 } := by
  unfold dirInsertStrncpy getInode
  simp

theorem getInode_dirInsertStrncpy_ne (v : Volume) (d ino : Nat) (name : List Nat) (x : Nat)
    (h : x ≠ d) :
    getInode (dirInsertStrncpy v d ino name) x = getInode v x := by
  unfold dirInsertStrncpy getInode
  simp only [setInode_inodes, setDirBlock_inodes]
  exact getI_setD_ne _ _ _ _ h

theorem foldl_frame (g : Volume → Nat → Volume) (l : List Nat) (v : Volume)
    (hg1 : ∀ w i, (g w i).inodes = w.inodes)
    (hg2 : ∀ w i, (g w i).dirBlocks = w.dirBlocks)
    (hg3 : ∀ w i, (g w i).fileIdx = w.fileIdx)
    (hg4 : ∀ w i, (g w i).ifree = w.ifree)
    (hg5 : ∀ w i, (g w i).nrFreeInodes = w.nrFreeInodes) :
    (l.foldl g v).inodes = v.inodes ∧ (l.foldl g v).dirBlocks = v.dirBlocks ∧
    (l.foldl g v).fileIdx = v.fileIdx ∧ (l.foldl g v).ifree = v.ifree ∧
    (l.foldl g v).nrFreeInodes = v.nrFreeInodes := by
  induction l generalizing v with
  | nil => exact ⟨rfl, rfl, rfl, rfl, rfl⟩
  | cons a as ih =>
    have hrec := ih (g v a)
    simp only [List.foldl_cons]
    exact ⟨hrec.1.trans (hg1 v a), hrec.2.1.trans (hg2 v a), hrec.2.2.1.trans (hg3 v a),
      hrec.2.2.2.1.trans (hg4 v a), hrec.2.2.2.2.trans (hg5 v a)⟩

theorem pnlfs_new_inode_of_alloc (v : Volume) (k : FKind)
    (h : (get_next_ifree v).1 ≠ 0) :
    pnlfs_new_inode v k =
      (some (get_next_ifree v).1,
        setInode (get_next_bfree (get_next_ifree v).2).2 (get_next_ifree v).1
          ⟨k, (get_next_bfree (get_next_ifree v).2).1, 0⟩) := by
  unfold pnlfs_new_inode
  rw [if_neg h]

/-- Claim C10: pnlfs_inode_by_name initializes ino to 0 and returns it
unchanged when no entry matches, and returns the stored inode number — 0
included — when one does; pnlfs_lookup treats a 0 result as failure, so no
name ever resolves to inode 0 and an entry storing inode 0 is reported as
not found. -/
theorem C10_zero_sentinel :
    (∀ v dirIno name,
        findEntryIdx (getDirBlock v (getInode v dirIno).index_block)
          (getInode v dirIno).nr_entries name = none →
        pnlfs_inode_by_name v dirIno name = 0) ∧
    (∀ v dirIno name j,
        findEntryIdx (getDirBlock v (getInode v dirIno).index_block)
          (getInode v dirIno).nr_entries name = some j →
        (getI (getDirBlock v (getInode v dirIno).index_block) j).ino = 0 →
        pnlfs_inode_by_name v dirIno name = 0) ∧
    (∀ v dirIno name, pnlfs_lookup v dirIno name ≠ some 0) ∧
    (∀ v dirIno name j,
        findEntryIdx (getDirBlock v (getInode v dirIno).index_block)
          (getInode v dirIno).nr_entries name = some j →
        (getI (getDirBlock v (getInode v dirIno).index_block) j).ino = 0 →
        pnlfs_lookup v dirIno name = none) := by
  refine ⟨?_, ?_, ?_, ?_⟩
  · intro v d name h
    simp only [pnlfs_inode_by_name]
    rw [h]
  · intro v d name j h h0
    simp only [pnlfs_inode_by_name]
    rw [h]
    exact h0
  · intro v d name
    simp only [pnlfs_lookup]
    by_cases h : pnlfs_inode_by_name v d name = 0
    · simp [h]
    · simp [h]
  · intro v d name j h h0
    simp only [pnlfs_lookup]
    have hz : pnlfs_inode_by_name v d name = 0 := by
      simp only [pnlfs_inode_by_name]
      rw [h]
      exact h0
    simp [hz]

/-- Claim C10 witness: concrete instances of all four conjuncts — a name
with no matching entry resolves to 0, a matching entry storing inode 0
resolves to 0 and is reported not found, and lookup never yields inode 0. -/
theorem C10_zero_sentinel_witness :
    pnlfs_inode_by_name vC9 0 [99] = 0 ∧
    pnlfs_inode_by_name vC10 0 [97] = 0 ∧
    pnlfs_lookup vC10 0 [97] ≠ some 0 ∧
    pnlfs_lookup vC10 0 [97] = none :=
  ⟨C10_zero_sentinel.1 vC9 0 [99] (by decide),
   C10_zero_sentinel.2.1 vC10 0 [97] 0 (by decide) (by decide),
   C10_zero_sentinel.2.2.1 vC10 0 [97],
   C10_zero_sentinel.2.2.2 vC10 0 [97] 0 (by decide) (by decide)⟩

/-- Claim C7 (amended): pnlfs_create rejecting a full directory and
pnlfs_rmdir rejecting a non-empty target return -1 with the volume
unchanged; but pnlfs_rename that fails on a full new_dir has already removed
old_name's slot from old_dir (its nr_entries is decremented), and
pnlfs_create that obtains an inode while no free block is left does not fail
or unwind: it succeeds with the new inode's index_block set to 0 and the
inode allocation kept. -/
theorem C7_error_paths :
    (∀ v d name, MAX_DIR_ENTRIES ≤ (getInode v d).nr_entries →
        pnlfs_create v d name = (-1, v)) ∧
    (∀ v d t name, (getInode v t).kind = FKind.dir →
        (getInode v d).nr_entries ≠ 0 → (getInode v t).nr_entries ≠ 0 →
        pnlfs_rmdir v d t name = (-1, v)) ∧
    (∀ v od ot onm nd nt nn, od ≠ nd →
        (getInode v od).nr_entries ≠ 0 →
        MAX_DIR_ENTRIES ≤ (getInode v nd).nr_entries →
        (pnlfs_rename v od ot onm nd nt nn).1 = -1 ∧
        (getInode (pnlfs_rename v od ot onm nd nt nn).2 od).nr_entries
          = (getInode v od).nr_entries - 1) ∧
    (∀ v d name, (getInode v d).nr_entries < MAX_DIR_ENTRIES →
        (get_next_ifree v).1 ≠ 0 → (get_next_ifree v).1 ≠ d →
        v.nrFreeBlocks = 0 →
        (pnlfs_create v d name).1 = 0 ∧
        (getInode (pnlfs_create v d name).2 (get_next_ifree v).1).index_block = 0 ∧
        (pnlfs_create v d name).2.nrFreeInodes = v.nrFreeInodes - 1 ∧
        (pnlfs_create v d name).2.nrFreeBlocks = v.nrFreeBlocks) := by
  refine ⟨?_, ?_, ?_, ?_⟩
  · intro v d name h
    simp only [pnlfs_create, createImpl]
    rw [if_pos h]
  · intro v d t name hk h1 h2
    simp only [pnlfs_rmdir]
    rw [if_neg (by simp [hk]), if_neg h1, if_pos h2]
  · intro v od ot onm nd nt nn hne h1 h2
    have hrun : pnlfs_rename v od ot onm nd nt nn = (-1, dirRemoveStep v od onm) := by
      simp only [pnlfs_rename]
      rw [if_neg h1]
      rw [getInode_dirRemoveStep_ne v od onm nd (by omega)]
      rw [if_pos h2]
    rw [hrun]
    exact ⟨rfl, by rw [getInode_dirRemoveStep_self]⟩
  · intro v d name h1 h2 h3 h4
    have hbfree : get_next_bfree (get_next_ifree v).2 = (0, (get_next_ifree v).2) := by
      apply get_next_bfree_of_empty
      rw [(get_next_ifree_frame v).2.2.2.2]
      exact h4
    have hrun : pnlfs_create v d name =
        (0, dirInsertStrncpy
              (setInode (get_next_ifree v).2 (get_next_ifree v).1
                ⟨FKind.reg, 0, 0⟩) d (get_next_ifree v).1 name) := by
      simp only [pnlfs_create, createImpl]
      rw [if_neg (by omega)]
      rw [pnlfs_new_inode_of_alloc v FKind.reg h2, hbfree]
    rw [hrun]
    dsimp only
    refine ⟨rfl, ?_, ?_, ?_⟩
    · rw [getInode_dirInsertStrncpy_ne _ _ _ _ _ h3]
      simp only [getInode, setInode_inodes]
      rw [getI_setD_self]
    · simp only [dirInsertStrncpy_nrFreeInodes, setInode_nrFreeInodes]
      exact get_next_ifree_counter v h2
    · simp only [dirInsertStrncpy_nrFreeBlocks, setInode_nrFreeBlocks]
      exact (get_next_ifree_frame v).2.2.2.2

/-- Claim C7 witness: the four branches instantiated on concrete volumes —
a full directory rejects create unchanged, a non-empty target rejects rmdir
unchanged, a rename failing DirFull has already shrunk old_dir, and a create
with no free block succeeds with index_block 0. -/
theorem C7_error_paths_witness :
    pnlfs_create vC7a 0 [102] = (-1, vC7a) ∧
    pnlfs_rmdir vC7b 0 1 [97] = (-1, vC7b) ∧
    ((pnlfs_rename vC7c 0 2 [97] 1 none [98]).1 = -1 ∧
      (getInode (pnlfs_rename vC7c 0 2 [97] 1 none [98]).2 0).nr_entries
        = (getInode vC7c 0).nr_entries - 1) ∧
    ((pnlfs_create vC7d 0 [102]).1 = 0 ∧
      (getInode (pnlfs_create vC7d 0 [102]).2 (get_next_ifree vC7d).1).index_block = 0 ∧
      (pnlfs_create vC7d 0 [102]).2.nrFreeInodes = vC7d.nrFreeInodes - 1 ∧
      (pnlfs_create vC7d 0 [102]).2.nrFreeBlocks = vC7d.nrFreeBlocks) :=
  ⟨C7_error_paths.1 vC7a 0 [102] (by decide),
   C7_error_paths.2.1 vC7b 0 1 [97] (by decide) (by decide) (by decide),
   C7_error_paths.2.2.1 vC7c 0 2 [97] 1 none [98] (by decide) (by decide) (by decide),
   C7_error_paths.2.2.2 vC7d 0 [102] (by decide) (by decide) (by decide) (by decide)⟩

theorem pnlfs_unlink_run (v : Volume) (d t : Nat) (name : List Nat)
    (hk : (getInode v t).kind = FKind.reg)
    (h1 : (getInode v d).nr_entries ≠ 0) :
    pnlfs_unlink v d t name =
      (0, free_ifree
            (free_bfree
              ((List.range (getInode (dirRemoveStep v d name) t).nr_entries).foldl
                (fun w i => free_bfree w
                  (getI (getI (dirRemoveStep v d name).fileIdx
                    (getInode (dirRemoveStep v d name) t).index_block) i))
                (dirRemoveStep v d name))
              (getInode (dirRemoveStep v d name) t).index_block)
            t) := by
  simp only [pnlfs_unlink]
  rw [if_neg (by simp [hk]), if_neg h1]

theorem pnlfs_unlink_post_dir (v : Volume) (d t : Nat) (name : List Nat)
    (hk : (getInode v t).kind = FKind.reg)
    (h1 : (getInode v d).nr_entries ≠ 0) :
    (pnlfs_unlink v d t name).2.inodes = (dirRemoveStep v d name).inodes ∧
    (pnlfs_unlink v d t name).2.dirBlocks = (dirRemoveStep v d name).dirBlocks := by
  rw [pnlfs_unlink_run v d t name hk h1]
  dsimp only
  have hfold := foldl_frame
    (fun w i => free_bfree w
      (getI (getI (dirRemoveStep v d name).fileIdx
        (getInode (dirRemoveStep v d name) t).index_block) i))
    (List.range (getInode (dirRemoveStep v d name) t).nr_entries)
    (dirRemoveStep v d name)
    (fun w i => rfl) (fun w i => rfl) (fun w i => rfl) (fun w i => rfl) (fun w i => rfl)
  constructor
  · simp only [free_ifree_inodes, free_bfree_inodes]
    exact hfold.1
  · simp only [free_ifree_dirBlocks, free_bfree_dirBlocks]
    exact hfold.2.1

theorem pnlfs_unlink_scan_none (v : Volume) (d t : Nat) (name : List Nat)
    (hk : (getInode v t).kind = FKind.reg)
    (h1 : (getInode v d).nr_entries ≠ 0)
    (hscan : scanIdx (fun i => matchesName name
        (getI (getDirBlock v (getInode v d).index_block) i)) 0
        ((getInode v d).nr_entries - 1) = none) :
    (pnlfs_unlink v d t name).1 = 0 ∧
    getInode (pnlfs_unlink v d t name).2 d
      = { getInode v d with nr_entries := (getInode v d).nr_entries - 1 } ∧
    getDirBlock (pnlfs_unlink v d t name).2 ((getInode v d).index_block)
      = getDirBlock v ((getInode v d).index_block) := by
  have hrs : removeScan (getDirBlock v (getInode v d).index_block)
      (getInode v d).nr_entries name
      = (getDirBlock v (getInode v d).index_block, false) := by
    unfold removeScan
    rw [hscan]
  obtain ⟨hin, hdb⟩ := pnlfs_unlink_post_dir v d t name hk h1
  refine ⟨?_, ?_, ?_⟩
  · rw [pnlfs_unlink_run v d t name hk h1]
  · show getI (pnlfs_unlink v d t name).2.inodes d = _
    rw [hin]
    exact getInode_dirRemoveStep_self v d name
  · show getI (pnlfs_unlink v d t name).2.dirBlocks ((getInode v d).index_block)
      = getI v.dirBlocks ((getInode v d).index_block)
    rw [hdb, dirRemoveStep_dirBlocks, hrs]
    exact getI_setD_self _ _ _

/-- Claim C8 (amended): when name matches no live entry of dir and the
target inode is regular and dir is non-empty, pnlfs_unlink does not return
NotFound: it returns success, decrements nr_entries — silently dropping the
last live slot — while the directory block's array itself is unchanged, and
afterwards the name (still) does not resolve. -/
theorem C8_unlink_missing_name (v : Volume) (d t : Nat) (name : List Nat)
    (hk : (getInode v t).kind = FKind.reg)
    (h1 : (getInode v d).nr_entries ≠ 0)
    (h3 : ∀ i, i < (getInode v d).nr_entries →
        matchesName name (getI (getDirBlock v (getInode v d).index_block) i) = false) :
    (pnlfs_unlink v d t name).1 = 0 ∧
    (getInode (pnlfs_unlink v d t name).2 d).nr_entries
      = (getInode v d).nr_entries - 1 ∧
    getDirBlock (pnlfs_unlink v d t name).2 ((getInode v d).index_block)
      = getDirBlock v ((getInode v d).index_block) ∧
    pnlfs_lookup (pnlfs_unlink v d t name).2 d name = none := by
  have hscan : scanIdx (fun i => matchesName name
      (getI (getDirBlock v (getInode v d).index_block) i)) 0
      ((getInode v d).nr_entries - 1) = none :=
    (scanIdx_eq_none_iff _ _ _).mpr (fun k hk1 hk2 => h3 k (by omega))
  obtain ⟨hret, hino, hblk⟩ := pnlfs_unlink_scan_none v d t name hk h1 hscan
  refine ⟨hret, by rw [hino], hblk, ?_⟩
  have hscan2 : scanIdx (fun i => matchesName name
      (getI (getDirBlock v (getInode v d).index_block) i)) 0
      ((getInode v d).nr_entries - 1) = none := hscan
  have hfind : findEntryIdx
      (getDirBlock (pnlfs_unlink v d t name).2
        (getInode (pnlfs_unlink v d t name).2 d).index_block)
      (getInode (pnlfs_unlink v d t name).2 d).nr_entries name = none := by
    rw [hino]
    dsimp only
    rw [hblk]
    exact hscan2
  simp only [pnlfs_lookup, pnlfs_inode_by_name]
  rw [hfind]
  simp

/-- Claim C8 witness: the amended behaviour on the concrete volume vC8 with
the absent name b. -/
theorem C8_unlink_missing_name_witness :
    (pnlfs_unlink vC8 0 1 [98]).1 = 0 ∧
    (getInode (pnlfs_unlink vC8 0 1 [98]).2 0).nr_entries
      = (getInode vC8 0).nr_entries - 1 ∧
    getDirBlock (pnlfs_unlink vC8 0 1 [98]).2 ((getInode vC8 0).index_block)
      = getDirBlock vC8 ((getInode vC8 0).index_block) ∧
    pnlfs_lookup (pnlfs_unlink vC8 0 1 [98]).2 0 [98] = none :=
  C8_unlink_missing_name vC8 0 1 [98] (by decide) (by decide) (by decide)

/-- Claim C4 (amended): the removal scan shared by unlink, rmdir and rename
iterates only over the first nr_entries - 1 slots, so a name whose (unique)
match sits in the last live slot is not found by the scan and no shift is
performed — even though the full lookup scan over nr_entries slots does find
it; nr_entries is still decremented unconditionally, which drops the last
live slot, so the name no longer resolves after unlink. -/
theorem C4_remove_last_slot (v : Volume) (d t : Nat) (name : List Nat)
    (hk : (getInode v t).kind = FKind.reg)
    (h1 : (getInode v d).nr_entries ≠ 0)
    (h2 : matchesName name (getI (getDirBlock v (getInode v d).index_block)
        ((getInode v d).nr_entries - 1)) = true)
    (h3 : ∀ i, i < (getInode v d).nr_entries - 1 →
        matchesName name (getI (getDirBlock v (getInode v d).index_block) i) = false) :
    findEntryIdx (getDirBlock v (getInode v d).index_block)
      (getInode v d).nr_entries name = some ((getInode v d).nr_entries - 1) ∧
    removeScan (getDirBlock v (getInode v d).index_block)
      (getInode v d).nr_entries name
      = (getDirBlock v (getInode v d).index_block, false) ∧
    (pnlfs_unlink v d t name).1 = 0 ∧
    (getInode (pnlfs_unlink v d t name).2 d).nr_entries
      = (getInode v d).nr_entries - 1 ∧
    getDirBlock (pnlfs_unlink v d t name).2 ((getInode v d).index_block)
      = getDirBlock v ((getInode v d).index_block) ∧
    pnlfs_lookup (pnlfs_unlink v d t name).2 d name = none := by
  have hscan : scanIdx (fun i => matchesName name
      (getI (getDirBlock v (getInode v d).index_block) i)) 0
      ((getInode v d).nr_entries - 1) = none :=
    (scanIdx_eq_none_iff _ _ _).mpr (fun k hk1 hk2 => h3 k (by omega))
  obtain ⟨hret, hino, hblk⟩ := pnlfs_unlink_scan_none v d t name hk h1 hscan
  refine ⟨?_, ?_, hret, by rw [hino], hblk, ?_⟩
  · exact (scanIdx_eq_some_iff _ _ _ _).mpr
      ⟨by omega, by omega, h2, fun k hk1 hk2 => h3 k (by omega)⟩
  · unfold removeScan
    rw [hscan]
  · have hfind : findEntryIdx
        (getDirBlock (pnlfs_unlink v d t name).2
          (getInode (pnlfs_unlink v d t name).2 d).index_block)
        (getInode (pnlfs_unlink v d t name).2 d).nr_entries name = none := by
      rw [hino]
      dsimp only
      rw [hblk]
      exact hscan
    simp only [pnlfs_lookup, pnlfs_inode_by_name]
    rw [hfind]
    simp

/-- Claim C4 witness: on the single-entry directory of vC8 and its live name
a, lookup finds the last-slot entry but the removal scan does not; unlink
still succeeds, decrements nr_entries, leaves the block array unchanged, and
the name stops resolving. -/
theorem C4_remove_last_slot_witness :
    findEntryIdx (getDirBlock vC8 (getInode vC8 0).index_block)
      (getInode vC8 0).nr_entries [97] = some ((getInode vC8 0).nr_entries - 1) ∧
    removeScan (getDirBlock vC8 (getInode vC8 0).index_block)
      (getInode vC8 0).nr_entries [97]
      = (getDirBlock vC8 (getInode vC8 0).index_block, false) ∧
    (pnlfs_unlink vC8 0 1 [97]).1 = 0 ∧
    (getInode (pnlfs_unlink vC8 0 1 [97]).2 0).nr_entries
      = (getInode vC8 0).nr_entries - 1 ∧
    getDirBlock (pnlfs_unlink vC8 0 1 [97]).2 ((getInode vC8 0).index_block)
      = getDirBlock vC8 ((getInode vC8 0).index_block) ∧
    pnlfs_lookup (pnlfs_unlink vC8 0 1 [97]).2 0 [97] = none :=
  C4_remove_last_slot vC8 0 1 [97] (by decide) (by decide) (by decide) (by decide)

theorem findEntryIdx_setD_high (blk : List Entry) (nr : Nat) (name : List Nat)
    (e : Entry) (j : Nat) (h : findEntryIdx blk nr name = some j) :
    findEntryIdx (setD blk nr e) (nr + 1) name = some j ∧
    getI (setD blk nr e) j = getI blk j := by
  obtain ⟨hj0, hjlt, hpj, hmin⟩ := (scanIdx_eq_some_iff _ _ _ _).mp h
  have hjne : j ≠ nr := by omega
  constructor
  · apply (scanIdx_eq_some_iff _ _ _ _).mpr
    refine ⟨by omega, by omega, ?_, ?_⟩
    · rw [getI_setD_ne _ _ _ _ hjne]
      exact hpj
    · intro k hk1 hk2
      rw [getI_setD_ne _ _ _ _ (by omega)]
      exact hmin k hk1 hk2
  · exact getI_setD_ne _ _ _ _ hjne

/-- Claim C3 (amended): createImpl — the shared body of pnlfs_create and
pnlfs_mkdir — performs no existence check: when name is already a live entry
of dir, the directory has room and inode allocation succeeds, the call
returns success, appends a second entry for the name at slot nr_entries
(incrementing nr_entries), and pnlfs_inode_by_name still resolves the name
to the same first match as before. -/
theorem C3_create_duplicate (v : Volume) (d : Nat) (name : List Nat) (k : FKind)
    (j : Nat)
    (h1 : (getInode v d).nr_entries < MAX_DIR_ENTRIES)
    (h2 : findEntryIdx (getDirBlock v (getInode v d).index_block)
        (getInode v d).nr_entries name = some j)
    (h3 : (get_next_ifree v).1 ≠ 0)
    (h4 : (get_next_ifree v).1 ≠ d) :
    (createImpl v d name k).1 = 0 ∧
    (getInode (createImpl v d name k).2 d).nr_entries
      = (getInode v d).nr_entries + 1 ∧
    pnlfs_inode_by_name (createImpl v d name k).2 d name
      = pnlfs_inode_by_name v d name := by
  have hrun : createImpl v d name k =
      (0, dirInsertStrncpy
            (setInode (get_next_bfree (get_next_ifree v).2).2 (get_next_ifree v).1
              ⟨k, (get_next_bfree (get_next_ifree v).2).1, 0⟩) d
            (get_next_ifree v).1 name) := by
    simp only [createImpl]
    rw [if_neg (by omega), pnlfs_new_inode_of_alloc v k h3]
  have hWd : getInode (setInode (get_next_bfree (get_next_ifree v).2).2
      (get_next_ifree v).1 ⟨k, (get_next_bfree (get_next_ifree v).2).1, 0⟩) d
      = getInode v d := by
    unfold getInode
    simp only [setInode_inodes]
    rw [getI_setD_ne _ _ _ _ (Ne.symm h4)]
    rw [(get_next_bfree_frame _).1, (get_next_ifree_frame v).1]
  have hWdb : (setInode (get_next_bfree (get_next_ifree v).2).2
      (get_next_ifree v).1 ⟨k, (get_next_bfree (get_next_ifree v).2).1, 0⟩).dirBlocks
      = v.dirBlocks := by
    simp only [setInode_dirBlocks]
    rw [(get_next_bfree_frame _).2.1, (get_next_ifree_frame v).2.1]
  have hSd : getInode (createImpl v d name k).2 d
      = { getInode v d with nr_entries := (getInode v d).nr_entries + 1 } := by
    rw [hrun]
    dsimp only
    rw [getInode_dirInsertStrncpy_self, hWd]
  have hSb : getDirBlock (createImpl v d name k).2 ((getInode v d).index_block)
      = setD (getDirBlock v ((getInode v d).index_block)) (getInode v d).nr_entries
          (Entry.mk (get_next_ifree v).1
            (strncpyBytes
              (getI (getDirBlock v ((getInode v d).index_block))
                (getInode v d).nr_entries).name name)) := by
    rw [hrun]
    dsimp only
    unfold getDirBlock
    rw [dirInsertStrncpy_dirBlocks, hWd]
    unfold getDirBlock
    rw [hWdb, getI_setD_self]
  obtain ⟨hfind2, hent⟩ := findEntryIdx_setD_high
    (getDirBlock v ((getInode v d).index_block)) (getInode v d).nr_entries name
    (Entry.mk (get_next_ifree v).1
      (strncpyBytes
        (getI (getDirBlock v ((getInode v d).index_block))
          (getInode v d).nr_entries).name name)) j h2
  refine ⟨by rw [hrun], by rw [hSd], ?_⟩
  simp only [pnlfs_inode_by_name]
  rw [hSd]
  dsimp only
  rw [hSb, hfind2, h2]
  dsimp only
  rw [hent]

/-- Claim C3 witness: the duplicate-append behaviour on vC3, whose root
already holds the name f. -/
theorem C3_create_duplicate_witness :
    (createImpl vC3 0 [102] FKind.reg).1 = 0 ∧
    (getInode (createImpl vC3 0 [102] FKind.reg).2 0).nr_entries
      = (getInode vC3 0).nr_entries + 1 ∧
    pnlfs_inode_by_name (createImpl vC3 0 [102] FKind.reg).2 0 [102]
      = pnlfs_inode_by_name vC3 0 [102] :=
  C3_create_duplicate vC3 0 [102] FKind.reg 0
    (by decide) (by decide) (by decide) (by decide)

theorem pnlfs_rename_run (v : Volume) (od ot : Nat) (onm : List Nat) (nd : Nat)
    (nt : Option Nat) (nn : List Nat)
    (h1 : (getInode v od).nr_entries ≠ 0)
    (h2 : (getInode (dirRemoveStep v od onm) nd).nr_entries < MAX_DIR_ENTRIES) :
    pnlfs_rename v od ot onm nd nt nn =
      (0, setInode
            (setDirBlock (dirRemoveStep v od onm)
              (getInode (dirRemoveStep v od onm) nd).index_block
              (setD
                (getDirBlock (dirRemoveStep v od onm)
                  (getInode (dirRemoveStep v od onm) nd).index_block)
                (getInode (dirRemoveStep v od onm) nd).nr_entries
                ⟨nt.getD ot,
                  strcpyBytes
                    (getI (getDirBlock (dirRemoveStep v od onm)
                        (getInode (dirRemoveStep v od onm) nd).index_block)
                      (getInode (dirRemoveStep v od onm) nd).nr_entries).name nn⟩))
            nd
            { getInode (dirRemoveStep v od onm) nd with
                nr_entries := (getInode (dirRemoveStep v od onm) nd).nr_entries + 1 }) := by
  simp only [pnlfs_rename]
  rw [if_neg h1, if_neg (by omega)]

/-- Claim C5 (amended): when new_name already lives in new_dir (a directory
distinct from old_dir, with a distinct directory block) as inode T, a
successful rename appends a second entry for new_name carrying T's inode
number (new_inode = new_dentry->d_inode is the displaced target), so
lookup(new_dir, new_name) still returns T, not the moved source S; no
resource of T is freed — both bitmaps and both free counters are
unchanged. -/
theorem C5_rename_keeps_target (v : Volume) (od S : Nat) (onm : List Nat)
    (nd T : Nat) (nn : List Nat) (j : Nat)
    (hndod : nd ≠ od)
    (hblkne : (getInode v nd).index_block ≠ (getInode v od).index_block)
    (h1 : (getInode v od).nr_entries ≠ 0)
    (hroom : (getInode v nd).nr_entries < MAX_DIR_ENTRIES)
    (hj : findEntryIdx (getDirBlock v (getInode v nd).index_block)
        (getInode v nd).nr_entries nn = some j)
    (hT : (getI (getDirBlock v (getInode v nd).index_block) j).ino = T)
    (hT0 : T ≠ 0) :
    (pnlfs_rename v od S onm nd (some T) nn).1 = 0 ∧
    pnlfs_lookup (pnlfs_rename v od S onm nd (some T) nn).2 nd nn = some T ∧
    (pnlfs_rename v od S onm nd (some T) nn).2.ifree = v.ifree ∧
    (pnlfs_rename v od S onm nd (some T) nn).2.bfree = v.bfree ∧
    (pnlfs_rename v od S onm nd (some T) nn).2.nrFreeInodes = v.nrFreeInodes ∧
    (pnlfs_rename v od S onm nd (some T) nn).2.nrFreeBlocks = v.nrFreeBlocks := by
  have hnd2 : getInode (dirRemoveStep v od onm) nd = getInode v nd :=
    getInode_dirRemoveStep_ne v od onm nd hndod
  have hblk : getDirBlock (dirRemoveStep v od onm) ((getInode v nd).index_block)
      = getDirBlock v ((getInode v nd).index_block) := by
    unfold getDirBlock
    rw [dirRemoveStep_dirBlocks]
    exact getI_setD_ne _ _ _ _ hblkne
  have hrun := pnlfs_rename_run v od S onm nd (some T) nn h1 (by rw [hnd2]; exact hroom)
  rw [hnd2, hblk] at hrun
  have hSnd : getInode (pnlfs_rename v od S onm nd (some T) nn).2 nd
      = { getInode v nd with nr_entries := (getInode v nd).nr_entries + 1 } := by
    rw [hrun]
    dsimp only
    unfold getInode
    simp only [setInode_inodes]
    rw [getI_setD_self]
  have hSb : getDirBlock (pnlfs_rename v od S onm nd (some T) nn).2
      ((getInode v nd).index_block)
      = setD (getDirBlock v ((getInode v nd).index_block)) (getInode v nd).nr_entries
          ⟨T, strcpyBytes
              (getI (getDirBlock v ((getInode v nd).index_block))
                (getInode v nd).nr_entries).name nn⟩ := by
    rw [hrun]
    dsimp only
    unfold getDirBlock
    simp only [setInode_dirBlocks, setDirBlock_dirBlocks, Option.getD_some]
    rw [getI_setD_self]
  obtain ⟨hfind2, hent⟩ := findEntryIdx_setD_high
    (getDirBlock v ((getInode v nd).index_block)) (getInode v nd).nr_entries nn
    ⟨T, strcpyBytes
        (getI (getDirBlock v ((getInode v nd).index_block))
          (getInode v nd).nr_entries).name nn⟩ j hj
  refine ⟨by rw [hrun], ?_, ?_, ?_, ?_, ?_⟩
  · simp only [pnlfs_lookup, pnlfs_inode_by_name]
    rw [hSnd]
    dsimp only
    rw [hSb, hfind2]
    dsimp only
    rw [hent, hT]
    simp [hT0]
  · rw [hrun]
    dsimp only
    simp only [setInode_ifree, setDirBlock_ifree, dirRemoveStep_ifree]
  · rw [hrun]
    dsimp only
    simp only [setInode_bfree, setDirBlock_bfree, dirRemoveStep_bfree]
  · rw [hrun]
    dsimp only
    simp only [setInode_nrFreeInodes, setDirBlock_nrFreeInodes, dirRemoveStep_nrFreeInodes]
  · rw [hrun]
    dsimp only
    simp only [setInode_nrFreeBlocks, setDirBlock_nrFreeBlocks, dirRemoveStep_nrFreeBlocks]

/-- Claim C5 witness: the amended behaviour on vC5, renaming f (S = inode 1)
onto the existing g (T = inode 3). -/
theorem C5_rename_keeps_target_witness :
    (pnlfs_rename vC5 0 1 [102] 2 (some 3) [103]).1 = 0 ∧
    pnlfs_lookup (pnlfs_rename vC5 0 1 [102] 2 (some 3) [103]).2 2 [103] = some 3 ∧
    (pnlfs_rename vC5 0 1 [102] 2 (some 3) [103]).2.ifree = vC5.ifree ∧
    (pnlfs_rename vC5 0 1 [102] 2 (some 3) [103]).2.bfree = vC5.bfree ∧
    (pnlfs_rename vC5 0 1 [102] 2 (some 3) [103]).2.nrFreeInodes = vC5.nrFreeInodes ∧
    (pnlfs_rename vC5 0 1 [102] 2 (some 3) [103]).2.nrFreeBlocks = vC5.nrFreeBlocks :=
  C5_rename_keeps_target vC5 0 1 [102] 2 3 [103] 0
    (by decide) (by decide) (by decide) (by decide) (by decide) (by decide) (by decide)

/-- Claim C6 (amended): rename(d, n, d, n) on a directory whose unique entry
for n sits below the last live slot is not a no-op on the directory block —
the entry is removed (shifting the tail) and re-appended in the last live
slot — but it returns success and preserves nr_entries, both bitmaps, both
free counters, and the name still resolves to the same inode. -/
theorem C6_same_rename_moves_entry (v : Volume) (d S : Nat) (n : List Nat) (p : Nat)
    (h1 : (getInode v d).nr_entries ≠ 0)
    (hmax : (getInode v d).nr_entries ≤ MAX_DIR_ENTRIES)
    (hp : findEntryIdx (getDirBlock v (getInode v d).index_block)
        ((getInode v d).nr_entries - 1) n = some p)
    (huniq : ∀ i, i < (getInode v d).nr_entries → i ≠ p →
        matchesName n (getI (getDirBlock v (getInode v d).index_block) i) = false)
    (_hS : (getI (getDirBlock v (getInode v d).index_block) p).ino = S)
    (hS0 : S ≠ 0)
    (h0 : ∀ c, c ∈ n → c ≠ 0) :
    (pnlfs_rename v d S n d (some S) n).1 = 0 ∧
    (getInode (pnlfs_rename v d S n d (some S) n).2 d).nr_entries
      = (getInode v d).nr_entries ∧
    (pnlfs_rename v d S n d (some S) n).2.ifree = v.ifree ∧
    (pnlfs_rename v d S n d (some S) n).2.bfree = v.bfree ∧
    (pnlfs_rename v d S n d (some S) n).2.nrFreeInodes = v.nrFreeInodes ∧
    (pnlfs_rename v d S n d (some S) n).2.nrFreeBlocks = v.nrFreeBlocks ∧
    pnlfs_lookup (pnlfs_rename v d S n d (some S) n).2 d n = some S := by
  have hp2 : scanIdx (fun i => matchesName n
      (getI (getDirBlock v (getInode v d).index_block) i)) 0
      ((getInode v d).nr_entries - 1) = some p := hp
  obtain ⟨-, hplt, hpp, hpmin⟩ := (scanIdx_eq_some_iff _ _ _ _).mp hp2
  have hremove : removeScan (getDirBlock v (getInode v d).index_block)
      (getInode v d).nr_entries n
      = (shiftLeft (getDirBlock v (getInode v d).index_block) p
          (getInode v d).nr_entries, true) := by
    unfold removeScan
    rw [hp2]
  have hdb : getInode (dirRemoveStep v d n) d
      = { getInode v d with nr_entries := (getInode v d).nr_entries - 1 } :=
    getInode_dirRemoveStep_self v d n
  have hblk2 : getDirBlock (dirRemoveStep v d n) ((getInode v d).index_block)
      = shiftLeft (getDirBlock v (getInode v d).index_block) p
          (getInode v d).nr_entries := by
    unfold getDirBlock
    rw [dirRemoveStep_dirBlocks, hremove]
    exact getI_setD_self _ _ _
  have hrun := pnlfs_rename_run v d S n d (some S) n h1
    (by rw [hdb]; dsimp only; omega)
  rw [hdb] at hrun
  dsimp only at hrun
  rw [hblk2] at hrun
  simp only [Option.getD_some] at hrun
  have hSnd : getInode (pnlfs_rename v d S n d (some S) n).2 d
      = { kind := (getInode v d).kind, index_block := (getInode v d).index_block,
          nr_entries := (getInode v d).nr_entries - 1 + 1 } := by
    rw [hrun]
    dsimp only
    unfold getInode
    simp only [setInode_inodes]
    rw [getI_setD_self]
  have hSb : getDirBlock (pnlfs_rename v d S n d (some S) n).2
      ((getInode v d).index_block)
      = setD (shiftLeft (getDirBlock v (getInode v d).index_block) p
            (getInode v d).nr_entries)
          ((getInode v d).nr_entries - 1)
          ⟨S, strcpyBytes
              (getI (shiftLeft (getDirBlock v (getInode v d).index_block) p
                  (getInode v d).nr_entries)
                ((getInode v d).nr_entries - 1)).name n⟩ := by
    rw [hrun]
    dsimp only
    unfold getDirBlock
    simp only [setInode_dirBlocks, setDirBlock_dirBlocks]
    rw [getI_setD_self]
  have hmatch : matchesName n
      (⟨S, strcpyBytes
          (getI (shiftLeft (getDirBlock v (getInode v d).index_block) p
              (getInode v d).nr_entries)
            ((getInode v d).nr_entries - 1)).name n⟩ : Entry) = true := by
    simp only [matchesName, strcpyBytes]
    exact strncmpEq_append n _ h0
  have hfind : findEntryIdx
      (setD (shiftLeft (getDirBlock v (getInode v d).index_block) p
          (getInode v d).nr_entries)
        ((getInode v d).nr_entries - 1)
        ⟨S, strcpyBytes
            (getI (shiftLeft (getDirBlock v (getInode v d).index_block) p
                (getInode v d).nr_entries)
              ((getInode v d).nr_entries - 1)).name n⟩)
      ((getInode v d).nr_entries - 1 + 1) n
      = some ((getInode v d).nr_entries - 1) := by
    apply (scanIdx_eq_some_iff _ _ _ _).mpr
    refine ⟨by omega, by omega, ?_, ?_⟩
    · rw [getI_setD_self]
      exact hmatch
    · intro k hk1 hk2
      rw [getI_setD_ne _ _ _ _ (by omega), getI_shiftLeft]
      by_cases hc : p ≤ k ∧ k < (getInode v d).nr_entries - 1
      · rw [if_pos hc]
        exact huniq (k + 1) (by omega) (by omega)
      · rw [if_neg hc]
        have hkp : k ≠ p := by
          intro he
          exact hc ⟨by omega, by omega⟩
        exact huniq k (by omega) hkp
  refine ⟨by rw [hrun], by rw [hSnd]; dsimp only; omega, ?_, ?_, ?_, ?_, ?_⟩
  · rw [hrun]
    dsimp only
    simp only [setInode_ifree, setDirBlock_ifree, dirRemoveStep_ifree]
  · rw [hrun]
    dsimp only
    simp only [setInode_bfree, setDirBlock_bfree, dirRemoveStep_bfree]
  · rw [hrun]
    dsimp only
    simp only [setInode_nrFreeInodes, setDirBlock_nrFreeInodes, dirRemoveStep_nrFreeInodes]
  · rw [hrun]
    dsimp only
    simp only [setInode_nrFreeBlocks, setDirBlock_nrFreeBlocks, dirRemoveStep_nrFreeBlocks]
  · simp only [pnlfs_lookup, pnlfs_inode_by_name]
    rw [hSnd]
    dsimp only
    rw [hSb, hfind]
    dsimp only
    rw [getI_setD_self]
    simp [hS0]

/-- Claim C6 witness: rename(d, a, d, a) on vC6, whose entry a is in slot 0
of two: success, nr_entries and bitmaps and counters preserved, a still
resolves to inode 1 (the block itself changes, as C6_counterexample
shows). -/
theorem C6_same_rename_moves_entry_witness :
    (pnlfs_rename vC6 0 1 [97] 0 (some 1) [97]).1 = 0 ∧
    (getInode (pnlfs_rename vC6 0 1 [97] 0 (some 1) [97]).2 0).nr_entries
      = (getInode vC6 0).nr_entries ∧
    (pnlfs_rename vC6 0 1 [97] 0 (some 1) [97]).2.ifree = vC6.ifree ∧
    (pnlfs_rename vC6 0 1 [97] 0 (some 1) [97]).2.bfree = vC6.bfree ∧
    (pnlfs_rename vC6 0 1 [97] 0 (some 1) [97]).2.nrFreeInodes = vC6.nrFreeInodes ∧
    (pnlfs_rename vC6 0 1 [97] 0 (some 1) [97]).2.nrFreeBlocks = vC6.nrFreeBlocks ∧
    pnlfs_lookup (pnlfs_rename vC6 0 1 [97] 0 (some 1) [97]).2 0 [97] = some 1 :=
  C6_same_rename_moves_entry vC6 0 1 [97] 0 (by decide) (by decide) (by decide)
    (by decide) (by decide) (by decide) (by decide)

/-- Claim C7 counterexample: on vC7c the rename fails with the DirFull error
(new_dir holds MAX_DIR_ENTRIES entries) yet the volume is mutated — old_dir
has already lost its entry slot. -/
theorem C7_counterexample :
    (pnlfs_rename vC7c 0 2 [97] 1 none [98]).1 = -1 ∧
    (pnlfs_rename vC7c 0 2 [97] 1 none [98]).2 ≠ vC7c ∧
    (getInode (pnlfs_rename vC7c 0 2 [97] 1 none [98]).2 0).nr_entries = 0 := by
  decide
